import Mathlib

/-!
Verification of the PayScale URL classification engine (`payscale_parser.py`).

The embedding follows the source closely:
* `safe_int_conversion` embeds `PayScaleURLParser.safe_int_conversion`;
* `parse_metric_portion` embeds `PayScaleURLParser.parse_metric_portion`
  (anchored regexes `pagination`, `city_location`, `with_id_and_extra`,
  `simple`, plus the slash-splitting fallback);
* `parse_url` embeds `PayScaleURLParser.parse_url`, including a model of
  Python's `urllib.parse.urlparse` (`pyUrlparse`) and `unquote`
  (`unquoteChars`), and the `_empty_result` record.

Strings are modelled as Lean `String` over their `List Char` data; the
ASCII behaviour of Python's regex classes (`\d`, `[a-f0-9]`, `[^/]`, `.`)
is modelled with `Char.isDigit`, an explicit hex-digit test, `(· != '/')`
and "any character" respectively.
-/

/-- Substring test on character lists: Python's `needle in hay`. -/
def isSubL (needle : List Char) : List Char → Bool
  | [] => needle.isPrefixOf []
  | l@(_ :: rest) => needle.isPrefixOf l || isSubL needle rest

/-- Substring test on strings: Python's `needle in hay`. -/
def isSubS (needle hay : String) : Bool := isSubL needle.data hay.data

/-- Python `str.split(sep)` on a single separator character (keeps empty pieces). -/
def splitChar (sep : Char) : List Char → List (List Char)
  | [] => [[]]
  | c :: rest =>
    if c = sep then [] :: splitChar sep rest
    else
      match splitChar sep rest with
      | h :: t => (c :: h) :: t
      | [] => [[c]]

/-- Python's whitespace set for `str.strip()` (ASCII). -/
def pySpace (c : Char) : Bool :=
  c = ' ' || c = '\t' || c = '\n' || c = '\x0d' || c = '\x0b' || c = '\x0c'

/-- Python `str.strip()` on character lists. -/
def pyStripL (l : List Char) : List Char :=
  ((l.dropWhile pySpace).reverse.dropWhile pySpace).reverse

/-- Python `str.strip()`. -/
def pyStrip (s : String) : String := String.mk (pyStripL s.data)

/-- Hex digits accepted by percent-escapes (`urllib.parse.unquote`). -/
def isHexDig (c : Char) : Bool :=
  c.isDigit || ('a' ≤ c && c ≤ 'f') || ('A' ≤ c && c ≤ 'F')

/-- Numeric value of a hex digit. -/
def hexVal (c : Char) : Nat :=
  if c.isDigit then c.toNat - 48
  else if 'a' ≤ c && c ≤ 'f' then c.toNat - 87
  else if 'A' ≤ c && c ≤ 'F' then c.toNat - 55
  else 0

/-- Percent-decoding on character lists, modelling `urllib.parse.unquote`:
a `%` followed by two hex digits decodes to the corresponding byte
(taken as a code point; the claims only exercise ASCII), any malformed
escape is left as-is. -/
def unquoteChars : List Char → List Char
  | [] => []
  | '%' :: a :: b :: rest =>
    if isHexDig a && isHexDig b then
      Char.ofNat (16 * hexVal a + hexVal b) :: unquoteChars rest
    else '%' :: unquoteChars (a :: b :: rest)
  | c :: rest => c :: unquoteChars rest

/-- Percent-decoding on strings (`urllib.parse.unquote`). -/
def unquoteS (s : String) : String := String.mk (unquoteChars s.data)

/-- `str.replace('-', ' ')` on character lists. -/
def replaceDashL (l : List Char) : List Char :=
  l.map (fun c => if c = '-' then ' ' else c)

/-- `str.replace('-', ' ')` on strings. -/
def replaceDashS (s : String) : String := String.mk (replaceDashL s.data)

/-- One fuel-indexed step list for Python `str.replace(old, new)`:
non-overlapping left-to-right replacement.  Fuel-indexed so that the
kernel can evaluate it (structural recursion on the fuel); with
`fuel = l.length` and a nonempty `old` it computes Python's `replace`. -/
def replaceFuel (old new : List Char) : Nat → List Char → List Char
  | 0, l => l
  | _ + 1, [] => []
  | fuel + 1, c :: rest =>
    if old.isPrefixOf (c :: rest) then
      new ++ replaceFuel old new fuel ((c :: rest).drop old.length)
    else c :: replaceFuel old new fuel rest

/-- Python `s.replace(old, new)` (for nonempty `old`, the only use here). -/
def pyReplace (s old new : String) : String :=
  String.mk (replaceFuel old.data new.data s.data.length s.data)

/-- Value of a run of decimal digits (Python `int` on the matched digits). -/
def natOfDigits (l : List Char) : Nat :=
  l.foldl (fun n c => 10 * n + (c.toNat - 48)) 0

/-- `re.search(r'\d+', s)`: the first maximal run of decimal digits, if any. -/
def firstDigitRun (l : List Char) : Option (List Char) :=
  let r := l.dropWhile (fun c => !c.isDigit)
  if r = [] then none else some (r.takeWhile Char.isDigit)

/-- Embeds `PayScaleURLParser.safe_int_conversion` (source lines 34-57):
empty/absent input yields `none`; the token is percent-decoded; a decoded
text containing `{` or `}` yields `none`; otherwise the first maximal
digit run is parsed, and `none` is returned when no digit occurs. -/
def safe_int_conversion (value : Option String) : Option Nat :=
  match value with
  | none => none
  | some s =>
    if s = "" then none
    else
      let decoded := unquoteChars s.data
      if ('{' ∈ decoded) || ('}' ∈ decoded) then none
      else (firstDigitRun decoded).map natOfDigits

/-- Output of `parse_metric_portion`: the `result` dictionary built at
source lines 68-75 (`raw_metric` always stores the unmodified input). -/
structure MetricInfo where
  metric_type : Option String
  page_number : Option Nat
  additional_employer : Option String
  location_info : Option String
  unique_id : Option String
  raw_metric : String
deriving Repr, DecidableEq

/-- The literal `"/Page-"` of the `pagination` and `city_location` regexes. -/
def pagLit : List Char := "/Page-".data

/-- The literal `"City/"` of the `city_location` regex. -/
def cityLit : List Char := "City/".data

/-- `re.compile(r'^([^/]+)/Page-(\d+)$').match`: the `pagination` metric
pattern (source line 22). Returns the two groups. -/
def matchPagination (l : List Char) : Option (List Char × List Char) :=
  let t := l.takeWhile (· != '/')
  let r := l.dropWhile (· != '/')
  if t = [] then none
  else if pagLit.isPrefixOf r then
    let d := r.drop pagLit.length
    if d ≠ [] && d.all Char.isDigit then some (t, d) else none
  else none

/-- `re.compile(r'^City/([^/]+)(?:/Page-(\d+))?$').match`: the
`city_location` metric pattern (source line 31). -/
def matchCity (l : List Char) : Option (List Char × Option (List Char)) :=
  if cityLit.isPrefixOf l then
    let r := l.drop cityLit.length
    let loc := r.takeWhile (· != '/')
    let r2 := r.dropWhile (· != '/')
    if loc = [] then none
    else if r2 = [] then some (loc, none)
    else if pagLit.isPrefixOf r2 then
      let d := r2.drop pagLit.length
      if d ≠ [] && d.all Char.isDigit then some (loc, some d) else none
    else none
  else none

/-- `re.compile(r'^([^/]+)/([^/]+)/(.+)$').match`: the `with_id_and_extra`
metric pattern (source line 25). -/
def matchIdExtra (l : List Char) : Option (List Char × List Char × List Char) :=
  let t := l.takeWhile (· != '/')
  let r := l.dropWhile (· != '/')
  if t = [] then none
  else
    match r with
    | '/' :: r1 =>
      let m := r1.takeWhile (· != '/')
      let r2 := r1.dropWhile (· != '/')
      if m = [] then none
      else
        match r2 with
        | '/' :: e => if e ≠ [] then some (t, m, e) else none
        | _ => none
    | _ => none

/-- `re.compile(r'^([^/]+)$').match`: the `simple` metric pattern. -/
def matchSimple (l : List Char) : Bool := l ≠ [] && l.all (· != '/')

/-- `re.match(r'^[a-f0-9]{8,}$', middle, re.I)`: the hex-identifier test
of source line 106. -/
def hexLike (l : List Char) : Bool := decide (8 ≤ l.length) && l.all isHexDig

/-- `unquote(x).replace('_', ' ').replace('%2C', ',')` — the decode used
for entity names and `extra` parts (source lines 103, 145, 210, 221, 243). -/
def decodeName (s : String) : String :=
  pyReplace (pyReplace (unquoteS s) "_" " ") "%2C" ","

/-- `unquote(x).replace('_', ' ')` — the decode used for the
country-research `subsection` (source line 232). -/
def decodeSub (s : String) : String := pyReplace (unquoteS s) "_" " "

/-- The noise-keyword test of source line 113:
`any(word in extra_part.lower() for word in ['page', 'salary', 'hourly'])`. -/
def noiseKeyword (s : String) : Bool :=
  let low := s.map Char.toLower
  isSubS "page" low || isSubS "salary" low || isSubS "hourly" low

/-- Handling of `parts` in the fallback branch of `parse_metric_portion`
(source lines 130-146). -/
def metricFallback (base : MetricInfo) (parts : List (List Char)) : MetricInfo :=
  match parts with
  | [] => base
  | p0 :: rest =>
    let b1 := { base with metric_type := some (String.mk p0) }
    let b2 :=
      match rest with
      | [] => b1
      | p1 :: _ =>
        if "Page-".data.isPrefixOf p1 then
          -- `parts[1].split('-', 1)` on a `Page-` prefix always has a tail
          let tail := (p1.dropWhile (· != '-')).drop 1
          { b1 with page_number := safe_int_conversion (some (String.mk tail)) }
        else { b1 with unique_id := some (String.mk p1) }
    match rest with
    | _ :: p2 :: _ => { b2 with additional_employer := some (decodeName (String.mk p2)) }
    | _ => b2

/-- Embeds `PayScaleURLParser.parse_metric_portion` (source lines 59-147):
the metric grammars are tried in order `pagination`, `city_location`,
`with_id_and_extra`, `simple`, then the slash-splitting fallback. -/
def parse_metric_portion (mp : String) : MetricInfo :=
  let base : MetricInfo :=
    { metric_type := none, page_number := none, additional_employer := none,
      location_info := none, unique_id := none, raw_metric := mp }
  if mp.data = [] then base
  else
    match matchPagination mp.data with
    | some (t, d) =>
      { base with metric_type := some (String.mk t),
                  page_number := safe_int_conversion (some (String.mk d)) }
    | none =>
      match matchCity mp.data with
      | some (loc, pg) =>
        { base with metric_type := some "City",
                    location_info := some (replaceDashS (unquoteS (String.mk loc))),
                    page_number :=
                      match pg with
                      | some d => safe_int_conversion (some (String.mk d))
                      | none => none }
      | none =>
        match matchIdExtra mp.data with
        | some (t, m, e) =>
          let extra := decodeName (String.mk e)
          let b1 := { base with metric_type := some (String.mk t) }
          if hexLike m then
            { b1 with unique_id := some (String.mk m), additional_employer := some extra }
          else if ('-' ∈ m) || m.length = 2 then
            let b2 := { b1 with location_info := some (String.mk (replaceDashL m)) }
            if noiseKeyword extra then b2
            else { b2 with additional_employer := some extra }
          else
            let combined := pyReplace (String.mk m ++ " " ++ extra) "_" " "
            { b1 with additional_employer := some combined }
        | none =>
          if matchSimple mp.data then { base with metric_type := some mp }
          else metricFallback base (splitChar '/' mp.data)

example : parse_metric_portion "Salary/Page-3" =
    { metric_type := some "Salary", page_number := some 3,
      additional_employer := none, location_info := none, unique_id := none,
      raw_metric := "Salary/Page-3" } := by decide

example : parse_metric_portion "Hourly_Rate/0a9d4bb0/H.E.B." =
    { metric_type := some "Hourly_Rate", page_number := none,
      additional_employer := some "H.E.B.", location_info := none,
      unique_id := some "0a9d4bb0", raw_metric := "Hourly_Rate/0a9d4bb0/H.E.B." } := by decide

example : parse_metric_portion "City/Washington-DC/Page-2" =
    { metric_type := some "City", page_number := some 2,
      additional_employer := none, location_info := some "Washington DC",
      unique_id := none, raw_metric := "City/Washington-DC/Page-2" } := by decide

example : safe_int_conversion (some "{Page}") = none := by decide
example : safe_int_conversion (some "%7BPage%7D") = none := by decide
example : safe_int_conversion (some "abc12x34") = some 12 := by decide

/-- The classification record built by `parse_url` (source lines 164-182).
Python's `section` key is named `section_` (`section` is a Lean keyword);
`raw_metric` models the extra key merged in by `result.update(metric_info)`
on research URLs (`none` = key absent). -/
structure UrlRecord where
  url : Option String
  domain : Option String
  full_path : Option String
  section_ : Option String
  subsection : Option String
  location_state : Option String
  location_city : Option String
  country : Option String
  job_title : Option String
  employer : Option String
  skill : Option String
  metric_type : Option String
  page_number : Option Nat
  additional_employer : Option String
  location_info : Option String
  unique_id : Option String
  category : String
  raw_metric : Option String
deriving Repr, DecidableEq

/-- Embeds `PayScaleURLParser._empty_result` (source lines 277-297). -/
def empty_result (url : Option String) : UrlRecord :=
  { url := url, domain := none, full_path := none, section_ := none,
    subsection := none, location_state := none, location_city := none,
    country := none, job_title := none, employer := none, skill := none,
    metric_type := none, page_number := none, additional_employer := none,
    location_info := none, unique_id := none, category := "other",
    raw_metric := none }

/-- The `result` dictionary as initialised at source lines 164-182. -/
def mkBase (url netloc path : String) : UrlRecord :=
  { url := some url, domain := some netloc, full_path := some path,
    section_ := none, subsection := none, location_state := none,
    location_city := none, country := none, job_title := none,
    employer := none, skill := none, metric_type := none,
    page_number := none, additional_employer := none, location_info := none,
    unique_id := none, category := "other", raw_metric := none }

/-- Characters allowed in a URL scheme by `urllib.parse`
(letters, digits, `+`, `-`, `.`). -/
def schemeChar (c : Char) : Bool := c.isAlpha || c.isDigit || c = '+' || c = '-' || c = '.'

/-- The scheme-splitting step of `urllib.parse.urlsplit`: if the text up
to the first `:` is a valid scheme (first char a letter, all chars scheme
characters), drop `scheme:`. -/
def splitScheme (l : List Char) : List Char :=
  let pre := l.takeWhile (· != ':')
  let post := l.dropWhile (· != ':')
  match post with
  | ':' :: rest =>
    if (match pre with | c :: _ => c.isAlpha | [] => false) && pre.all schemeChar
    then rest else l
  | _ => l

/-- `_splitparams` of `urllib.parse.urlparse`: strip `;params` from the
last path segment. -/
def splitParams (p : List Char) : List Char :=
  if '/' ∈ p then
    let rev := p.reverse
    let lastSeg := (rev.takeWhile (· != '/')).reverse
    let front := (rev.dropWhile (· != '/')).reverse
    if ';' ∈ lastSeg then front ++ lastSeg.takeWhile (· != ';') else p
  else p.takeWhile (· != ';')

/-- After the netloc is removed: drop the fragment (first `#`) and the
query (first `?`), then split params — yielding `urlparse(...).path`. -/
def pathFrom (l : List Char) : List Char :=
  splitParams (l.takeWhile (fun c => c != '#' && c != '?'))

/-- Models `urllib.parse.urlparse`, returning `(netloc, path)`; `none`
models the `ValueError` raised on a netloc with unbalanced square
brackets ("Invalid IPv6 URL"), the fault that `parse_url` catches. -/
def pyUrlparse (s : String) : Option (String × String) :=
  let l1 := splitScheme s.data
  match l1 with
  | '/' :: '/' :: r =>
    let netloc := r.takeWhile (fun c => c != '/' && c != '?' && c != '#')
    let rest := r.dropWhile (fun c => c != '/' && c != '?' && c != '#')
    if (('[' ∈ netloc) && (']' ∉ netloc)) || ((']' ∈ netloc) && ('[' ∉ netloc))
    then none
    else some (String.mk netloc, String.mk (pathFrom rest))
  | _ => some ("", String.mk (pathFrom l1))

/-- The literal `"/research/"` opening every research URL pattern. -/
def researchLit : List Char := "/research/".data

/-- One attempt of the entity-research regexes
`/research/([^/]+)/<Entity>=([^/]+)/(.+)` at the head of `l`
(`ent` is `"/Job="`, `"/Employer="`, `"/Country="` or `"/Skill="`). -/
def tryEntityAt (ent l : List Char) : Option (List Char × List Char × List Char) :=
  if researchLit.isPrefixOf l then
    let r1 := l.drop researchLit.length
    let country := r1.takeWhile (· != '/')
    let r2 := r1.dropWhile (· != '/')
    if country ≠ [] && ent.isPrefixOf r2 then
      let r3 := r2.drop ent.length
      let name := r3.takeWhile (· != '/')
      let r4 := r3.dropWhile (· != '/')
      if name = [] then none
      else
        match r4 with
        | '/' :: metric => if metric ≠ [] then some (country, name, metric) else none
        | _ => none
    else none
  else none

/-- `re.search` of an entity-research pattern: try every start position
left to right. -/
def searchEntity (ent : List Char) : List Char → Option (List Char × List Char × List Char)
  | [] => none
  | l@(_ :: rest) =>
    match tryEntityAt ent l with
    | some r => some r
    | none => searchEntity ent rest

/-- One attempt of `general_research` = `/research/([^/]+)/?$` at the
head of `l`. -/
def tryGeneralAt (l : List Char) : Option (List Char) :=
  if researchLit.isPrefixOf l then
    let r1 := l.drop researchLit.length
    let country := r1.takeWhile (· != '/')
    let r2 := r1.dropWhile (· != '/')
    if country ≠ [] && (r2 = [] || r2 = ['/']) then some country else none
  else none

/-- `re.search` of the `general_research` pattern. -/
def searchGeneral : List Char → Option (List Char)
  | [] => none
  | l@(_ :: rest) =>
    match tryGeneralAt l with
    | some r => some r
    | none => searchGeneral rest

/-- The literal of the `cost_of_living` pattern. -/
def colLit : List Char := "/cost-of-living-calculator/".data

/-- One attempt of `cost_of_living` =
`/cost-of-living-calculator/([^/]+)(?:/(.+))?` at the head of `l`
(only group 1 is consumed by the source, so only it is returned). -/
def tryColAt (l : List Char) : Option (List Char) :=
  if colLit.isPrefixOf l then
    let run := (l.drop colLit.length).takeWhile (· != '/')
    if run ≠ [] then some run else none
  else none

/-- `re.search` of the `cost_of_living` pattern. -/
def colSearch : List Char → Option (List Char)
  | [] => none
  | l@(_ :: rest) =>
    match tryColAt l with
    | some r => some r
    | none => colSearch rest

/-- `location.split('-', 1)` (source line 194): the part before the first
hyphen, and the part after it when a hyphen exists. -/
def splitOnceDash (l : List Char) : List Char × Option (List Char) :=
  let a := l.takeWhile (· != '-')
  let r := l.dropWhile (· != '-')
  match r with
  | '-' :: rest => (a, some rest)
  | _ => (a, none)

/-- `result.update(metric_info)` (source lines 214, 225, 236, 247): the
six metric keys overwrite the record's. -/
def mergeMetric (r : UrlRecord) (m : MetricInfo) : UrlRecord :=
  { r with metric_type := m.metric_type, page_number := m.page_number,
           additional_employer := m.additional_employer,
           location_info := m.location_info, unique_id := m.unique_id,
           raw_metric := some m.raw_metric }

/-- The cost-of-living branch of `parse_url` (source lines 184-199). -/
def colBranch (base : UrlRecord) (p : String) : UrlRecord :=
  let b1 := { base with section_ := some "cost_of_living", category := "cost_of_living" }
  match colSearch p.data with
  | none => b1
  | some loc =>
    match splitOnceDash loc with
    | (st, some city) =>
      { b1 with location_state := some (String.mk (replaceDashL st)),
                location_city := some (String.mk (replaceDashL city)) }
    | (st, none) => { b1 with location_state := some (String.mk (replaceDashL st)) }

/-- The research branch of `parse_url` (source lines 202-253): the four
entity grammars in order `Job=`, `Employer=`, `Country=`, `Skill=`, then
`general_research`. -/
def researchBranch (base : UrlRecord) (p : String) : UrlRecord :=
  let b1 := { base with section_ := some "research" }
  match searchEntity "/Job=".data p.data with
  | some (c, n, m) =>
    mergeMetric
      { b1 with category := "research_job", country := some (String.mk c),
                job_title := some (decodeName (String.mk n)) }
      (parse_metric_portion (String.mk m))
  | none =>
    match searchEntity "/Employer=".data p.data with
    | some (c, n, m) =>
      mergeMetric
        { b1 with category := "research_employer", country := some (String.mk c),
                  employer := some (decodeName (String.mk n)) }
        (parse_metric_portion (String.mk m))
    | none =>
      match searchEntity "/Country=".data p.data with
      | some (c, n, m) =>
        mergeMetric
          { b1 with category := "research_country", country := some (String.mk c),
                    subsection := some (decodeSub (String.mk n)) }
          (parse_metric_portion (String.mk m))
      | none =>
        match searchEntity "/Skill=".data p.data with
        | some (c, n, m) =>
          mergeMetric
            { b1 with category := "research_skill", country := some (String.mk c),
                      skill := some (decodeName (String.mk n)) }
            (parse_metric_portion (String.mk m))
        | none =>
          match searchGeneral p.data with
          | some c => { b1 with category := "research_general", country := some (String.mk c) }
          | none => b1

/-- The path dispatch of `parse_url` (source lines 184-275), applied once
the URL has been decomposed into `netloc` and `path`. -/
def dispatch (s netloc p : String) : UrlRecord :=
  let base := mkBase s netloc p
  if isSubS "/cost-of-living-calculator" p then colBranch base p
  else if isSubS "/research/" p then researchBranch base p
  else if p = "/" || p = "" then
    { base with section_ := some "homepage", category := "homepage" }
  else if isSubS "/salary-calculator" p then
    { base with section_ := some "salary_calculator", category := "tools" }
  else if isSubS "/products/" p then
    { base with section_ := some "products", category := "commercial" }
  else if isSubS "/careers" p then
    { base with section_ := some "careers", category := "corporate" }
  else if isSubS "/compensation-trends/" p then
    { base with section_ := some "compensation_trends", category := "content" }
  else { base with section_ := some "other", category := "other" }

/-- Embeds `PayScaleURLParser.parse_url` (source lines 149-275): blank or
absent input yields `_empty_result`; a `urlparse` fault yields
`_empty_result`; otherwise the path dispatch runs. -/
def parse_url (url : Option String) : UrlRecord :=
  match url with
  | none => empty_result none
  | some s =>
    if s = "" then empty_result (some s)
    else
      match pyUrlparse (pyStrip s) with
      | none => empty_result (some s)
      | some (netloc, p) => dispatch s netloc p

example : (parse_url (some "https://site.example/cost-of-living-calculator/California-San-Francisco")).location_state = some "California" := by decide
example : (parse_url (some "https://site.example/cost-of-living-calculator/California-San-Francisco")).location_city = some "San Francisco" := by decide
example : (parse_url (some "https://site.example/research/United_States/Job=Software_Engineer/Salary/Page-2")).category = "research_job" := by decide
example : (parse_url (some "https://site.example/research/United_States/Job=Software_Engineer/Salary/Page-2")).job_title = some "Software Engineer" := by decide
example : (parse_url (some "https://site.example/research/United_States/Job=Software_Engineer/Salary/Page-2")).page_number = some 2 := by decide
example : (parse_url (some "https://site.example/research/United_States/Job=Software_Engineer/Salary/Page-2")).metric_type = some "Salary" := by decide
example : (parse_url (some "http://[::1")) = empty_result (some "http://[::1") := by decide
example : (parse_url (some " ")).category = "homepage" := by decide
example : (parse_url (some "https://x/research/")).section_ = some "research" := by decide
example : (parse_url (some "https://x/research/")).category = "other" := by decide

theorem data_append (s t : String) : (s ++ t).data = s.data ++ t.data := rfl

theorem mk_data (s : String) : String.mk s.data = s := rfl

theorem data_ne_nil {s : String} (h : s ≠ "") : s.data ≠ [] := by
  intro hd
  apply h
  cases s with
  | mk l => cases hd; rfl

theorem takeWhile_append_all {p : Char → Bool} :
    ∀ {xs : List Char}, (∀ c ∈ xs, p c = true) →
      ∀ ys, List.takeWhile p (xs ++ ys) = xs ++ List.takeWhile p ys := by
  intro xs
  induction xs with
  | nil => intro _ ys; rfl
  | cons a l ih =>
    intro h ys
    have ha : p a = true := h a (List.mem_cons_self a l)
    simp [List.takeWhile_cons, ha]
    exact ih (fun c hc => h c (List.mem_cons_of_mem a hc)) ys

theorem dropWhile_append_all {p : Char → Bool} :
    ∀ {xs : List Char}, (∀ c ∈ xs, p c = true) →
      ∀ ys, List.dropWhile p (xs ++ ys) = List.dropWhile p ys := by
  intro xs
  induction xs with
  | nil => intro _ ys; rfl
  | cons a l ih =>
    intro h ys
    have ha : p a = true := h a (List.mem_cons_self a l)
    simp [List.dropWhile_cons, ha]
    exact ih (fun c hc => h c (List.mem_cons_of_mem a hc)) ys

theorem takeWhile_all {p : Char → Bool} {l : List Char} (h : ∀ c ∈ l, p c = true) :
    l.takeWhile p = l := by
  have := takeWhile_append_all h []
  simpa using this

theorem dropWhile_all {p : Char → Bool} {l : List Char} (h : ∀ c ∈ l, p c = true) :
    l.dropWhile p = [] := by
  have := dropWhile_append_all h []
  simpa using this

theorem isPrefixOf_append_self : ∀ (l r : List Char), l.isPrefixOf (l ++ r) = true := by
  intro l
  induction l with
  | nil => intro r; simp [List.isPrefixOf]
  | cons a t ih => intro r; simp [List.isPrefixOf]

/-- C7: decoder behaviour and totality of `safe_int_conversion`
(`decode_int`): absent/empty input yields absent; a decoded text
containing `{` or `}` yields absent (in particular for `"{Page}"` and
`"%7BPage%7D"`); with no digit in the decoded text the result is absent;
otherwise the result is the first maximal left-to-right run of decimal
digits, parsed as a non-negative integer; the function is total, so no
fault is ever visible. -/
theorem safe_int_conversion_spec :
    (safe_int_conversion none = none) ∧
    (safe_int_conversion (some "") = none) ∧
    (∀ s : String, ('{' ∈ unquoteChars s.data ∨ '}' ∈ unquoteChars s.data) →
      safe_int_conversion (some s) = none) ∧
    (∀ s : String, (∀ c ∈ unquoteChars s.data, c.isDigit = false) →
      safe_int_conversion (some s) = none) ∧
    (∀ (s : String) (pre run post : List Char),
      ¬('{' ∈ unquoteChars s.data ∨ '}' ∈ unquoteChars s.data) →
      unquoteChars s.data = pre ++ run ++ post →
      (∀ c ∈ pre, c.isDigit = false) → run ≠ [] →
      (∀ c ∈ run, c.isDigit = true) →
      (∀ c, post.head? = some c → c.isDigit = false) →
      safe_int_conversion (some s) = some (natOfDigits run)) ∧
    (safe_int_conversion (some "{Page}") = none) ∧
    (safe_int_conversion (some "%7BPage%7D") = none) := by
  refine ⟨rfl, by decide, ?_, ?_, ?_, by decide, by decide⟩
  · intro s h
    by_cases hs : s = ""
    · simp [hs, safe_int_conversion]
    · have hb : (decide ('{' ∈ unquoteChars s.data) || decide ('}' ∈ unquoteChars s.data)) = true := by
        rcases h with h | h <;> simp [h]
      simp [safe_int_conversion, hs, hb]
  · intro s h
    by_cases hs : s = ""
    · simp [hs, safe_int_conversion]
    · have hdw : List.dropWhile (fun c => !c.isDigit) (unquoteChars s.data) = [] :=
        dropWhile_all (fun c hc => by simp [h c hc])
    
      by_cases hb : (decide ('{' ∈ unquoteChars s.data) || decide ('}' ∈ unquoteChars s.data)) = true
      · simp [safe_int_conversion, hs, hb]
      · simp [safe_int_conversion, hs, hb, firstDigitRun, hdw]
  · intro s pre run post hbr hdec hpre hrun hdig hpost
    by_cases hs : s = ""
    · exfalso
      apply hrun
      have : unquoteChars s.data = [] := by rw [hs]; rfl
      rw [this] at hdec
      rcases List.append_eq_nil.mp (List.append_eq_nil.mp hdec.symm).1 with ⟨_, h2⟩
      exact h2
    · have hb : (decide ('{' ∈ unquoteChars s.data) || decide ('}' ∈ unquoteChars s.data)) = false := by
        simp only [Bool.or_eq_false_iff, decide_eq_false_iff_not]
        exact ⟨fun h => hbr (Or.inl h), fun h => hbr (Or.inr h)⟩
      have e1 : List.dropWhile (fun c => !c.isDigit) (unquoteChars s.data) = run ++ post := by
        rw [hdec, List.append_assoc,
          dropWhile_append_all (fun c hc => by simp [hpre c hc])]
        cases run with
        | nil => exact absurd rfl hrun
        | cons a tl =>
          have ha : a.isDigit = true := hdig a (List.mem_cons_self a tl)
          simp [List.dropWhile_cons, ha]
      have e2 : List.takeWhile Char.isDigit (run ++ post) = run := by
        rw [takeWhile_append_all hdig]
        cases post with
        | nil => simp
        | cons b tl =>
          have hbd : b.isDigit = false := hpost b rfl
          simp [List.takeWhile_cons, hbd]
      have hne : run ++ post ≠ [] := by
        cases run with
        | nil => exact absurd rfl hrun
        | cons a tl => simp
      simp [safe_int_conversion, hs, hb, firstDigitRun, e1, e2, hne]

/-- Witness for C7: the decoder on `"ab12cd34"` returns the first maximal
digit run `12`. -/
theorem safe_int_conversion_spec_witness :
    safe_int_conversion (some "ab12cd34") = some 12 := by
  have h := safe_int_conversion_spec.2.2.2.2.1 "ab12cd34"
    ['a', 'b'] ['1', '2'] ['c', 'd', '3', '4']
    (by decide) (by decide) (by decide) (by decide) (by decide) (by decide)
  exact h.trans (by decide)

/-- C8: pagination grammar: a metric segment `<type>/Page-<digits>` with a
slash-free `<type>` yields `metric_type = <type>` verbatim, `page_number`
computed by the Decoder on the digits, and all other optional fields
absent (with `raw_metric` storing the unmodified input). -/
theorem pagination_grammar (t d : String)
    (ht : t ≠ "") (hts : ∀ c ∈ t.data, (c != '/') = true)
    (hd : d ≠ "") (hdig : ∀ c ∈ d.data, c.isDigit = true) :
    parse_metric_portion (t ++ "/Page-" ++ d) =
      { metric_type := some t, page_number := safe_int_conversion (some d),
        additional_employer := none, location_info := none, unique_id := none,
        raw_metric := t ++ "/Page-" ++ d } := by
  have hdata : (t ++ "/Page-" ++ d).data = t.data ++ (pagLit ++ d.data) := by
    rw [data_append, data_append, List.append_assoc]; rfl
  have hne : (t ++ "/Page-" ++ d).data ≠ [] := by
    rw [hdata]
    simp [data_ne_nil ht]
  have hlit : pagLit = '/' :: "Page-".data := rfl
  have htw : List.takeWhile (fun c => c != '/') (pagLit ++ d.data) = [] := by
    rw [hlit, List.cons_append]
    simp [List.takeWhile_cons]
  have hdw : List.dropWhile (fun c => c != '/') (pagLit ++ d.data) = pagLit ++ d.data := by
    conv_lhs => rw [hlit, List.cons_append]
    rw [List.dropWhile_cons]
    simp [hlit]
  have hall : d.data.all Char.isDigit = true := List.all_eq_true.mpr hdig
  have hpag : matchPagination (t.data ++ (pagLit ++ d.data)) = some (t.data, d.data) := by
    simp only [matchPagination]
    rw [takeWhile_append_all hts, dropWhile_append_all hts, htw, hdw, List.append_nil]
    rw [if_neg (data_ne_nil ht), if_pos (isPrefixOf_append_self pagLit d.data), List.drop_left]
    simp [data_ne_nil hd, hall]
  simp only [parse_metric_portion]
  rw [if_neg hne, hdata, hpag]

/-- Witness for C8: `classify_metric("Salary/Page-3")` yields
`metric_type = "Salary"`, `page_number = 3`, all other fields absent. -/
theorem pagination_grammar_witness :
    parse_metric_portion "Salary/Page-3" =
      { metric_type := some "Salary", page_number := some 3,
        additional_employer := none, location_info := none, unique_id := none,
        raw_metric := "Salary/Page-3" } := by
  have h := pagination_grammar "Salary" "3" (by decide) (by decide) (by decide) (by decide)
  exact h.trans (by decide)

/-- Does a token have the shape `Page-<digits>` (the pagination suffix)?
Used to state when the `pagination` grammar captures a city segment. -/
def isPageSuffix (l : List Char) : Bool :=
  "Page-".data.isPrefixOf l && (decide (l.drop 5 ≠ []) && (l.drop 5).all Char.isDigit)

theorem city4_all : ∀ c ∈ (['C', 'i', 't', 'y'] : List Char), (c != '/') = true := by decide

theorem takeWhile_city (x : List Char) :
    List.takeWhile (fun c => c != '/') (cityLit ++ x) = ['C', 'i', 't', 'y'] := by
  have hsplit : cityLit ++ x = ['C', 'i', 't', 'y'] ++ ('/' :: x) := rfl
  rw [hsplit, takeWhile_append_all city4_all]
  simp [List.takeWhile_cons]

theorem dropWhile_city (x : List Char) :
    List.dropWhile (fun c => c != '/') (cityLit ++ x) = '/' :: x := by
  have hsplit : cityLit ++ x = ['C', 'i', 't', 'y'] ++ ('/' :: x) := rfl
  rw [hsplit, dropWhile_append_all city4_all]
  simp [List.dropWhile_cons]

theorem pagLit_isPrefixOf_cons (x : List Char) :
    pagLit.isPrefixOf ('/' :: x) = "Page-".data.isPrefixOf x := by
  have h : pagLit = '/' :: "Page-".data := rfl
  rw [h]
  simp [List.isPrefixOf]

/-- On a two-segment city segment `City/<loc>`, the `pagination` grammar
matches exactly when `<loc>` is `Page-<digits>`; with that excluded it
fails. -/
theorem matchPagination_city (loc : List Char) (h : isPageSuffix loc = false) :
    matchPagination (cityLit ++ loc) = none := by
  simp only [matchPagination, takeWhile_city, dropWhile_city]
  rw [if_neg (by decide : ¬(['C', 'i', 't', 'y'] : List Char) = [])]
  rw [pagLit_isPrefixOf_cons]
  by_cases hp : "Page-".data.isPrefixOf loc = true
  · rw [if_pos hp]
    have h5 : List.drop pagLit.length ('/' :: loc) = List.drop 5 loc := rfl
    rw [h5]
    rw [isPageSuffix, hp, Bool.true_and] at h
    rw [h]
    simp
  · rw [if_neg hp]

/-- On a three-segment city segment `City/<loc>/Page-<digits>` with a
slash-free `<loc>`, the `pagination` grammar never matches. -/
theorem matchPagination_city3 (loc d : List Char)
    (hls : ∀ c ∈ loc, (c != '/') = true) :
    matchPagination (cityLit ++ (loc ++ (pagLit ++ d))) = none := by
  simp only [matchPagination, takeWhile_city, dropWhile_city]
  rw [if_neg (by decide : ¬(['C', 'i', 't', 'y'] : List Char) = [])]
  rw [pagLit_isPrefixOf_cons]
  by_cases hp : "Page-".data.isPrefixOf (loc ++ (pagLit ++ d)) = true
  · rw [if_pos hp]
    rcases loc with _ | ⟨a, _ | ⟨b, _ | ⟨c0, _ | ⟨d0, _ | ⟨e0, rest⟩⟩⟩⟩⟩
    · rw [show ((([] : List Char) ++ (pagLit ++ d))) = '/' :: ("Page-".data ++ d) from rfl] at hp
      simp [List.isPrefixOf] at hp
    · rw [show (([a] : List Char) ++ (pagLit ++ d)) = a :: '/' :: ("Page-".data ++ d) from rfl] at hp
      simp [List.isPrefixOf] at hp
    · rw [show (([a, b] : List Char) ++ (pagLit ++ d)) = a :: b :: '/' :: ("Page-".data ++ d) from rfl] at hp
      simp [List.isPrefixOf] at hp
    · rw [show (([a, b, c0] : List Char) ++ (pagLit ++ d)) = a :: b :: c0 :: '/' :: ("Page-".data ++ d) from rfl] at hp
      simp [List.isPrefixOf] at hp
    · rw [show (([a, b, c0, d0] : List Char) ++ (pagLit ++ d)) = a :: b :: c0 :: d0 :: '/' :: ("Page-".data ++ d) from rfl] at hp
      simp [List.isPrefixOf] at hp
    · have h5 : List.drop pagLit.length ('/' :: (a :: b :: c0 :: d0 :: e0 :: rest ++ (pagLit ++ d)))
          = rest ++ (pagLit ++ d) := rfl
      rw [h5]
      have hmem : '/' ∈ rest ++ (pagLit ++ d) :=
        List.mem_append.mpr (Or.inr (List.mem_append.mpr (Or.inl (by decide))))
      have hall : (rest ++ (pagLit ++ d)).all Char.isDigit = false := by
        rw [Bool.eq_false_iff]
        intro hall
        have := List.all_eq_true.mp hall '/' hmem
        simp at this
      rw [hall]
      simp
  · rw [if_neg hp]

/-- The `city_location` grammar on a two-segment `City/<loc>`. -/
theorem matchCity_two (loc : List Char) (hl : loc ≠ [])
    (hls : ∀ c ∈ loc, (c != '/') = true) :
    matchCity (cityLit ++ loc) = some (loc, none) := by
  simp only [matchCity]
  rw [if_pos (isPrefixOf_append_self cityLit loc), List.drop_left]
  rw [takeWhile_all hls, dropWhile_all hls]
  rw [if_neg hl]
  rfl

/-- The `city_location` grammar on a three-segment
`City/<loc>/Page-<digits>`. -/
theorem matchCity_three (loc d : List Char) (hl : loc ≠ [])
    (hls : ∀ c ∈ loc, (c != '/') = true)
    (hd : d ≠ []) (hall : d.all Char.isDigit = true) :
    matchCity (cityLit ++ (loc ++ (pagLit ++ d))) = some (loc, some d) := by
  simp only [matchCity]
  rw [if_pos (isPrefixOf_append_self cityLit _), List.drop_left]
  rw [takeWhile_append_all hls, dropWhile_append_all hls]
  have htw : List.takeWhile (fun c => c != '/') (pagLit ++ d) = [] := by
    rw [show pagLit ++ d = '/' :: ("Page-".data ++ d) from rfl]
    simp [List.takeWhile_cons]
  have hdw : List.dropWhile (fun c => c != '/') (pagLit ++ d) = pagLit ++ d := by
    conv_lhs => rw [show pagLit ++ d = '/' :: ("Page-".data ++ d) from rfl]
    rw [List.dropWhile_cons]
    simp [show pagLit = '/' :: "Page-".data from rfl]
  rw [htw, hdw, List.append_nil]
  rw [if_neg hl]
  rw [if_neg (by simp [show pagLit = '/' :: "Page-".data from rfl] : ¬pagLit ++ d = [])]
  rw [if_pos (isPrefixOf_append_self pagLit d), List.drop_left]
  simp [hd, hall]

/-- C9 (amended): city-location grammar: for a metric segment
`City/<location>` or `City/<location>/Page-<digits>` whose `<location>`
is slash-free and not itself of the pagination shape `Page-<digits>`
(that shape is captured by the higher-priority pagination grammar),
`classify_metric` sets `metric_type` literally to `"City"`,
`location_info` to the percent-decoded location with hyphens replaced by
spaces, and `page_number` via the Decoder exactly when the pagination
suffix is present. -/
theorem city_location_grammar (loc : String)
    (hl : loc ≠ "") (hls : ∀ c ∈ loc.data, (c != '/') = true)
    (hnp : isPageSuffix loc.data = false) :
    (parse_metric_portion ("City/" ++ loc) =
      { metric_type := some "City", page_number := none,
        additional_employer := none,
        location_info := some (replaceDashS (unquoteS loc)), unique_id := none,
        raw_metric := "City/" ++ loc }) ∧
    (∀ d : String, d ≠ "" → (∀ c ∈ d.data, c.isDigit = true) →
      parse_metric_portion ("City/" ++ loc ++ "/Page-" ++ d) =
        { metric_type := some "City",
          page_number := safe_int_conversion (some d),
          additional_employer := none,
          location_info := some (replaceDashS (unquoteS loc)), unique_id := none,
          raw_metric := "City/" ++ loc ++ "/Page-" ++ d }) := by
  constructor
  · have hdata : ("City/" ++ loc).data = cityLit ++ loc.data := rfl
    have hne : ("City/" ++ loc).data ≠ [] := by
      rw [hdata]
      simp [show cityLit = 'C' :: "ity/".data from rfl]
    simp only [parse_metric_portion]
    rw [if_neg hne, hdata, matchPagination_city loc.data hnp,
      matchCity_two loc.data (data_ne_nil hl) hls]
  · intro d hd hdig
    have hdata3 : ("City/" ++ loc ++ "/Page-" ++ d).data
        = cityLit ++ (loc.data ++ (pagLit ++ d.data)) := by
      rw [data_append, data_append, data_append]
      simp only [List.append_assoc]
      rfl
    have hne3 : ("City/" ++ loc ++ "/Page-" ++ d).data ≠ [] := by
      rw [hdata3]
      simp [show cityLit = 'C' :: "ity/".data from rfl]
    simp only [parse_metric_portion]
    rw [if_neg hne3, hdata3, matchPagination_city3 loc.data d.data hls,
      matchCity_three loc.data d.data (data_ne_nil hl) hls (data_ne_nil hd)
        (List.all_eq_true.mpr hdig)]

/-- Counterexample for C9 as stated: `"City/Page-7"` has the shape
`City/<location>` (with `<location> = "Page-7"`), but the code's
pagination grammar wins: `location_info` stays absent and `page_number`
is populated, contrary to the claim's reading. -/
theorem city_grammar_counterexample :
    (parse_metric_portion "City/Page-7").location_info = none ∧
    (parse_metric_portion "City/Page-7").page_number = some 7 ∧
    (parse_metric_portion "City/Page-7").metric_type = some "City" := by decide

/-- Witness for C9: `classify_metric("City/Washington-DC/Page-2")` yields
`metric_type = "City"`, `location_info = "Washington DC"`,
`page_number = 2`. -/
theorem city_location_grammar_witness :
    parse_metric_portion "City/Washington-DC/Page-2" =
      { metric_type := some "City", page_number := some 2,
        additional_employer := none, location_info := some "Washington DC",
        unique_id := none, raw_metric := "City/Washington-DC/Page-2" } := by
  have h := (city_location_grammar "Washington-DC" (by decide) (by decide)
    (by decide)).2 "2" (by decide) (by decide)
  exact h.trans (by decide)

/-- The `with_id_and_extra` grammar on a three-part segment
`<t>/<m>/<e>` with slash-free nonempty `<t>`, `<m>` and nonempty `<e>`. -/
theorem matchIdExtra_three (t m e : List Char)
    (ht : t ≠ []) (hts : ∀ c ∈ t, (c != '/') = true)
    (hm : m ≠ []) (hms : ∀ c ∈ m, (c != '/') = true)
    (he : e ≠ []) :
    matchIdExtra (t ++ ('/' :: (m ++ ('/' :: e)))) = some (t, m, e) := by
  have h1 : List.takeWhile (fun c => c != '/') (t ++ ('/' :: (m ++ ('/' :: e)))) = t := by
    rw [takeWhile_append_all hts]
    simp [List.takeWhile_cons]
  have h2 : List.dropWhile (fun c => c != '/') (t ++ ('/' :: (m ++ ('/' :: e))))
      = '/' :: (m ++ ('/' :: e)) := by
    rw [dropWhile_append_all hts]
    simp [List.dropWhile_cons]
  have h3 : List.takeWhile (fun c => c != '/') (m ++ ('/' :: e)) = m := by
    rw [takeWhile_append_all hms]
    simp [List.takeWhile_cons]
  have h4 : List.dropWhile (fun c => c != '/') (m ++ ('/' :: e)) = '/' :: e := by
    rw [dropWhile_append_all hms]
    simp [List.dropWhile_cons]
  simp only [matchIdExtra, h1, h2, h3, h4]
  rw [if_neg ht, if_neg hm, if_pos he]

/-- C5: id-and-extra disambiguation: on a three-part metric segment
`<t>/<m>/<e>` not captured by the pagination or city grammars,
`classify_metric` sets `metric_type = <t>` and disambiguates `<m>`:
a case-insensitive hex token of length at least 8 becomes `unique_id`
with the decoded extra as `additional_employer`; otherwise a middle with
a hyphen or of length exactly 2 becomes `location_info` (hyphens to
spaces) and the decoded extra is kept as `additional_employer` unless it
contains "page", "salary" or "hourly" case-insensitively; otherwise
`additional_employer` is the underscore-despaced `"<m> <e>"`. -/
theorem id_and_extra_disambiguation (t m e : String)
    (ht : t ≠ "") (hts : ∀ c ∈ t.data, (c != '/') = true)
    (hm : m ≠ "") (hms : ∀ c ∈ m.data, (c != '/') = true)
    (he : e ≠ "")
    (hnopag : matchPagination (t ++ "/" ++ m ++ "/" ++ e).data = none)
    (hnocity : matchCity (t ++ "/" ++ m ++ "/" ++ e).data = none) :
    parse_metric_portion (t ++ "/" ++ m ++ "/" ++ e) =
      (if hexLike m.data then
        { metric_type := some t, page_number := none,
          additional_employer := some (decodeName e), location_info := none,
          unique_id := some m, raw_metric := t ++ "/" ++ m ++ "/" ++ e }
       else if ('-' ∈ m.data) || m.data.length = 2 then
        (if noiseKeyword (decodeName e) then
          { metric_type := some t, page_number := none,
            additional_employer := none,
            location_info := some (String.mk (replaceDashL m.data)),
            unique_id := none, raw_metric := t ++ "/" ++ m ++ "/" ++ e }
         else
          { metric_type := some t, page_number := none,
            additional_employer := some (decodeName e),
            location_info := some (String.mk (replaceDashL m.data)),
            unique_id := none, raw_metric := t ++ "/" ++ m ++ "/" ++ e })
       else
        { metric_type := some t, page_number := none,
          additional_employer := some (pyReplace (m ++ " " ++ decodeName e) "_" " "),
          location_info := none, unique_id := none,
          raw_metric := t ++ "/" ++ m ++ "/" ++ e }) := by
  have hdata : (t ++ "/" ++ m ++ "/" ++ e).data
      = t.data ++ ('/' :: (m.data ++ ('/' :: e.data))) := by
    rw [data_append, data_append, data_append, data_append]
    simp only [List.append_assoc]
    rfl
  have hne : (t ++ "/" ++ m ++ "/" ++ e).data ≠ [] := by
    rw [hdata]
    simp
  rw [hdata] at hnopag hnocity
  simp only [parse_metric_portion]
  rw [if_neg hne, hdata, hnopag, hnocity,
    matchIdExtra_three t.data m.data e.data (data_ne_nil ht) hts (data_ne_nil hm) hms
      (data_ne_nil he)]

/-- Witness for C5: `classify_metric("Hourly_Rate/0a9d4bb0/H.E.B.")`
yields `metric_type = "Hourly_Rate"`, `unique_id = "0a9d4bb0"`,
`additional_employer = "H.E.B."`. -/
theorem id_and_extra_disambiguation_witness :
    parse_metric_portion "Hourly_Rate/0a9d4bb0/H.E.B." =
      { metric_type := some "Hourly_Rate", page_number := none,
        additional_employer := some "H.E.B.", location_info := none,
        unique_id := some "0a9d4bb0",
        raw_metric := "Hourly_Rate/0a9d4bb0/H.E.B." } := by
  have h := id_and_extra_disambiguation "Hourly_Rate" "0a9d4bb0" "H.E.B."
    (by decide) (by decide) (by decide) (by decide) (by decide) (by decide) (by decide)
  exact h.trans (by decide)

/-- Every path-dispatch branch assigns one of the eleven category
literals of the source (or leaves the default `"other"`). -/
theorem dispatch_category (s nl p : String) :
    (dispatch s nl p).category ∈
      (["cost_of_living", "research_job", "research_employer",
        "research_country", "research_skill", "research_general",
        "homepage", "tools", "commercial", "corporate", "content",
        "other"] : List String) := by
  unfold dispatch colBranch researchBranch mergeMetric mkBase
  repeat' split
  all_goals simp

/-- C1: totality of classification: `parse_url` is a total function; its
`category` is always one of the fixed literals (defaulting to `"other"`
for absent/empty/garbage input), and a URI-decomposition fault is
recovered locally, yielding the all-absent `_empty_result` record with
`category = "other"`. -/
theorem parse_url_totality :
    (∀ u : Option String, (parse_url u).category ∈
      (["cost_of_living", "research_job", "research_employer",
        "research_country", "research_skill", "research_general",
        "homepage", "tools", "commercial", "corporate", "content",
        "other"] : List String)) ∧
    ((parse_url none).category = "other") ∧
    ((parse_url (some "")).category = "other") ∧
    (∀ s : String, s ≠ "" → pyUrlparse (pyStrip s) = none →
      parse_url (some s) = empty_result (some s)) := by
  refine ⟨?_, rfl, by decide, ?_⟩
  · intro u
    match u with
    | none => simp [parse_url, empty_result]
    | some s =>
      by_cases hs : s = ""
      · simp [parse_url, hs, empty_result]
      · rcases hup : pyUrlparse (pyStrip s) with _ | ⟨nl, p⟩
        · simp [parse_url, hs, hup, empty_result]
        · have hd : parse_url (some s) = dispatch s nl p := by
            simp only [parse_url]
            rw [if_neg hs, hup]
          rw [hd]
          exact dispatch_category s nl p
  · intro s hs hup
    simp only [parse_url]
    rw [if_neg hs, hup]

/-- Witness for C1: an unbalanced-bracket URL (`urlparse` raises
"Invalid IPv6 URL" in the source) degrades to the all-absent record. -/
theorem parse_url_totality_witness :
    parse_url (some "http://[::1") = empty_result (some "http://[::1") :=
  parse_url_totality.2.2.2 "http://[::1" (by decide) (by decide)

/-- Counterexample for C3 as stated: a whitespace-only input is not
classified as the all-absent record with `category = "other"`: the code
strips it to the empty path and classifies it as the homepage. -/
theorem blank_whitespace_counterexample :
    (parse_url (some " ")).category = "homepage" ∧
    (parse_url (some " ")).section_ = some "homepage" ∧
    (parse_url (some " ")).domain = some "" := by decide

/-- C3 (amended): absent input and the empty string yield the all-absent
record with `category = "other"`; a whitespace-only nonempty string is
stripped to the empty path and classified as homepage
(`section = category = "homepage"`, with empty-string domain and path). -/
theorem blank_input_behaviour :
    (parse_url none = empty_result none) ∧
    (parse_url (some "") = empty_result (some "")) ∧
    (∀ s : String, s ≠ "" → (∀ c ∈ s.data, pySpace c = true) →
      parse_url (some s) =
        { mkBase s "" "" with section_ := some "homepage", category := "homepage" }) := by
  refine ⟨rfl, by decide, ?_⟩
  intro s hs hsp
  have hstrip : pyStripL s.data = [] := by
    unfold pyStripL
    rw [dropWhile_all hsp]
    rfl
  have hup : pyUrlparse (pyStrip s) = some ("", "") := by
    unfold pyStrip
    rw [hstrip]
    rfl
  simp only [parse_url]
  rw [if_neg hs, hup]
  simp only [dispatch]
  rw [if_neg (by decide), if_neg (by decide), if_pos (by decide)]

/-- Witness for C3: the single-space input is classified as homepage. -/
theorem blank_input_behaviour_witness :
    parse_url (some " ") =
      { mkBase " " "" "" with section_ := some "homepage", category := "homepage" } :=
  blank_input_behaviour.2.2 " " (by decide) (by decide)

/-- The metric-portion classifier always stores its unmodified input in
`raw_metric` (no branch overwrites the key set at source line 74). -/
theorem parse_metric_portion_raw (mp : String) :
    (parse_metric_portion mp).raw_metric = mp := by
  simp only [parse_metric_portion, metricFallback]
  repeat' split
  all_goals rfl

/-- Reduction of `parse_url` to the research branch under the research
dispatch conditions. -/
theorem parse_url_research (s nl p : String)
    (hs : s ≠ "") (hup : pyUrlparse (pyStrip s) = some (nl, p))
    (hcol : isSubS "/cost-of-living-calculator" p = false)
    (hres : isSubS "/research/" p = true) :
    parse_url (some s) = researchBranch (mkBase s nl p) p := by
  simp only [parse_url]
  rw [if_neg hs, hup]
  simp only [dispatch]
  rw [if_neg (by simp [hcol]), if_pos hres]

/-- C6: research dispatch priority: on a path containing `/research/`
(and not captured by the cost-of-living branch), the entity grammars are
consulted in the fixed order `Job=`, `Employer=`, `Country=`, `Skill=`;
the general-research rule applies only when all four failed, and a path
on which an entity grammar matches is never classified
`"research_general"`. -/
theorem research_dispatch_priority (s nl p : String)
    (hs : s ≠ "") (hup : pyUrlparse (pyStrip s) = some (nl, p))
    (hcol : isSubS "/cost-of-living-calculator" p = false)
    (hres : isSubS "/research/" p = true) :
    (∀ r, searchEntity "/Job=".data p.data = some r →
      (parse_url (some s)).category = "research_job") ∧
    (searchEntity "/Job=".data p.data = none →
      ∀ r, searchEntity "/Employer=".data p.data = some r →
        (parse_url (some s)).category = "research_employer") ∧
    (searchEntity "/Job=".data p.data = none →
      searchEntity "/Employer=".data p.data = none →
      ∀ r, searchEntity "/Country=".data p.data = some r →
        (parse_url (some s)).category = "research_country") ∧
    (searchEntity "/Job=".data p.data = none →
      searchEntity "/Employer=".data p.data = none →
      searchEntity "/Country=".data p.data = none →
      ∀ r, searchEntity "/Skill=".data p.data = some r →
        (parse_url (some s)).category = "research_skill") ∧
    (searchEntity "/Job=".data p.data = none →
      searchEntity "/Employer=".data p.data = none →
      searchEntity "/Country=".data p.data = none →
      searchEntity "/Skill=".data p.data = none →
      ∀ r, searchGeneral p.data = some r →
        (parse_url (some s)).category = "research_general") ∧
    ((searchEntity "/Job=".data p.data ≠ none ∨
      searchEntity "/Employer=".data p.data ≠ none ∨
      searchEntity "/Country=".data p.data ≠ none ∨
      searchEntity "/Skill=".data p.data ≠ none) →
      (parse_url (some s)).category ≠ "research_general") := by
  have hd := parse_url_research s nl p hs hup hcol hres
  refine ⟨?_, ?_, ?_, ?_, ?_, ?_⟩
  · rintro ⟨c, n, m⟩ hr
    rw [hd]
    simp only [researchBranch]
    rw [hr]
    rfl
  · intro hj
    rintro ⟨c, n, m⟩ hr
    rw [hd]
    simp only [researchBranch]
    rw [hj, hr]
    rfl
  · intro hj hemp
    rintro ⟨c, n, m⟩ hr
    rw [hd]
    simp only [researchBranch]
    rw [hj, hemp, hr]
    rfl
  · intro hj hemp hcty
    rintro ⟨c, n, m⟩ hr
    rw [hd]
    simp only [researchBranch]
    rw [hj, hemp, hcty, hr]
    rfl
  · intro hj hemp hcty hskl r hr
    rw [hd]
    simp only [researchBranch]
    rw [hj, hemp, hcty, hskl, hr]
  · intro hor
    rw [hd]
    simp only [researchBranch]
    rcases hj : searchEntity "/Job=".data p.data with _ | ⟨c1, n1, m1⟩
    · rcases hemp : searchEntity "/Employer=".data p.data with _ | ⟨c2, n2, m2⟩
      · rcases hcty : searchEntity "/Country=".data p.data with _ | ⟨c3, n3, m3⟩
        · rcases hskl : searchEntity "/Skill=".data p.data with _ | ⟨c4, n4, m4⟩
          · rcases hor with h | h | h | h <;> simp_all
          · simp [mergeMetric]
        · simp [mergeMetric]
      · simp [mergeMetric]
    · simp [mergeMetric]

/-- Witness for C6: a path matching both the `Job=` grammar and the
general-research shape is classified `"research_job"`. -/
theorem research_dispatch_priority_witness :
    (parse_url (some "https://x/research/A/Job=B/research/C")).category = "research_job" ∧
    searchGeneral "/research/A/Job=B/research/C".data ≠ none := by
  constructor
  · exact (research_dispatch_priority "https://x/research/A/Job=B/research/C" "x"
      "/research/A/Job=B/research/C" (by decide) (by decide) (by decide) (by decide)).1
      ("A".data, "B".data, "research/C".data) (by decide)
  · decide

/-- C10: every research URL matched by an entity grammar carries a
`raw_metric` field holding the unmodified metric portion of the path —
a key outside the documented record model, merged in wholesale with the
metric-portion result. -/
theorem raw_metric_leak (s nl p : String)
    (hs : s ≠ "") (hup : pyUrlparse (pyStrip s) = some (nl, p))
    (hcol : isSubS "/cost-of-living-calculator" p = false)
    (hres : isSubS "/research/" p = true) :
    (∀ c n m, searchEntity "/Job=".data p.data = some (c, n, m) →
      (parse_url (some s)).raw_metric = some (String.mk m)) ∧
    (searchEntity "/Job=".data p.data = none →
      ∀ c n m, searchEntity "/Employer=".data p.data = some (c, n, m) →
        (parse_url (some s)).raw_metric = some (String.mk m)) ∧
    (searchEntity "/Job=".data p.data = none →
      searchEntity "/Employer=".data p.data = none →
      ∀ c n m, searchEntity "/Country=".data p.data = some (c, n, m) →
        (parse_url (some s)).raw_metric = some (String.mk m)) ∧
    (searchEntity "/Job=".data p.data = none →
      searchEntity "/Employer=".data p.data = none →
      searchEntity "/Country=".data p.data = none →
      ∀ c n m, searchEntity "/Skill=".data p.data = some (c, n, m) →
        (parse_url (some s)).raw_metric = some (String.mk m)) := by
  have hd := parse_url_research s nl p hs hup hcol hres
  refine ⟨?_, ?_, ?_, ?_⟩
  · intro c n m hr
    rw [hd]
    simp only [researchBranch]
    rw [hr]
    simp [mergeMetric, parse_metric_portion_raw]
  · intro hj c n m hr
    rw [hd]
    simp only [researchBranch]
    rw [hj, hr]
    simp [mergeMetric, parse_metric_portion_raw]
  · intro hj hemp c n m hr
    rw [hd]
    simp only [researchBranch]
    rw [hj, hemp, hr]
    simp [mergeMetric, parse_metric_portion_raw]
  · intro hj hemp hcty c n m hr
    rw [hd]
    simp only [researchBranch]
    rw [hj, hemp, hcty, hr]
    simp [mergeMetric, parse_metric_portion_raw]

/-- Witness for C10: the job-research example URL carries
`raw_metric = "Salary/Page-2"`. -/
theorem raw_metric_leak_witness :
    (parse_url (some "https://site.example/research/United_States/Job=Software_Engineer/Salary/Page-2")).raw_metric
      = some "Salary/Page-2" := by
  have h := (raw_metric_leak
      "https://site.example/research/United_States/Job=Software_Engineer/Salary/Page-2"
      "site.example" "/research/United_States/Job=Software_Engineer/Salary/Page-2"
      (by decide) (by decide) (by decide) (by decide)).1
    "United_States".data "Software_Engineer".data "Salary/Page-2".data (by decide)
  exact h

/-- The cost-of-living branch always sets both `section` and `category`. -/
theorem colBranch_meta (base : UrlRecord) (p : String) :
    (colBranch base p).section_ = some "cost_of_living" ∧
    (colBranch base p).category = "cost_of_living" := by
  unfold colBranch
  repeat' split
  all_goals exact ⟨rfl, rfl⟩

/-- The `cost_of_living` regex at the head of
`/cost-of-living-calculator/<seg>` captures the slash-free `<seg>`. -/
theorem tryColAt_self (segd : List Char) (hne : segd ≠ [])
    (hss : ∀ c ∈ segd, (c != '/') = true) :
    tryColAt (colLit ++ segd) = some segd := by
  unfold tryColAt
  rw [if_pos (isPrefixOf_append_self colLit segd), List.drop_left,
    takeWhile_all hss, if_pos hne]

/-- A successful head attempt makes the scan succeed immediately. -/
theorem colSearch_head {l r : List Char} (hl : l ≠ []) (h : tryColAt l = some r) :
    colSearch l = some r := by
  cases l with
  | nil => exact absurd rfl hl
  | cons a t =>
    simp only [colSearch]
    rw [h]

/-- Counterexample for C4 as stated: on
`/cost-of-living-calculator/New%20York-Albany/zzz` the code splits the
first segment after the literal (not the trailing segment `"zzz"`) and
does not percent-decode: `location_state` is the raw `"New%20York"`,
not `"New York"` and not `"zzz"`. -/
theorem cost_of_living_decode_counterexample :
    (parse_url (some "https://site.example/cost-of-living-calculator/New%20York-Albany/zzz")).location_state
        = some "New%20York" ∧
    (parse_url (some "https://site.example/cost-of-living-calculator/New%20York-Albany/zzz")).location_city
        = some "Albany" := by decide

/-- C4 (amended): cost-of-living split: a URL whose path contains
`/cost-of-living-calculator` gets `section = category = "cost_of_living"`;
when the path is `/cost-of-living-calculator/<seg>` with `<seg>` nonempty
and slash-free, `<seg>` (the first segment after the literal) is split
once on its first hyphen into `location_state` (the part before) and
`location_city` (the part after, hyphens replaced by spaces), or
`location_state` alone when no hyphen exists; both values are taken
verbatim from the path (they are not percent-decoded). -/
theorem cost_of_living_split (s nl p : String)
    (hs : s ≠ "") (hup : pyUrlparse (pyStrip s) = some (nl, p))
    (hcol : isSubS "/cost-of-living-calculator" p = true) :
    ((parse_url (some s)).section_ = some "cost_of_living" ∧
     (parse_url (some s)).category = "cost_of_living") ∧
    (∀ seg : String, p = "/cost-of-living-calculator/" ++ seg → seg ≠ "" →
      (∀ c ∈ seg.data, (c != '/') = true) →
      (parse_url (some s)).location_state
          = some (String.mk (replaceDashL (splitOnceDash seg.data).1)) ∧
      (parse_url (some s)).location_city
          = Option.map (fun r => String.mk (replaceDashL r)) (splitOnceDash seg.data).2) := by
  have hd : parse_url (some s) = colBranch (mkBase s nl p) p := by
    simp only [parse_url]
    rw [if_neg hs, hup]
    simp only [dispatch]
    rw [if_pos hcol]
  constructor
  · rw [hd]
    exact colBranch_meta (mkBase s nl p) p
  · intro seg hp hseg hsegs
    have hpd : p.data = colLit ++ seg.data := by rw [hp]; rfl
    have hpne : colLit ++ seg.data ≠ [] := by simp [show colLit = '/' :: "cost-of-living-calculator/".data from rfl]
    have hcs : colSearch p.data = some seg.data := by
      rw [hpd]
      exact colSearch_head hpne (tryColAt_self seg.data (data_ne_nil hseg) hsegs)
    rw [hd]
    simp only [colBranch]
    rw [hcs]
    rcases hsp : splitOnceDash seg.data with ⟨st, city⟩
    rcases city with _ | city
    · simp [hsp, mkBase]
    · simp [hsp, mkBase]

/-- Witness for C4: the spec's own example splits on the first hyphen. -/
theorem cost_of_living_split_witness :
    (parse_url (some "https://site.example/cost-of-living-calculator/California-San-Francisco")).location_state
        = some "California" ∧
    (parse_url (some "https://site.example/cost-of-living-calculator/California-San-Francisco")).location_city
        = some "San Francisco" ∧
    (parse_url (some "https://site.example/cost-of-living-calculator/California-San-Francisco")).category
        = "cost_of_living" := by
  have h := cost_of_living_split
    "https://site.example/cost-of-living-calculator/California-San-Francisco"
    "site.example" "/cost-of-living-calculator/California-San-Francisco"
    (by decide) (by decide) (by decide)
  have h2 := h.2 "California-San-Francisco" (by decide) (by decide) (by decide)
  exact ⟨h2.1.trans (by decide), h2.2.trans (by decide), h.1.2⟩

/-- All grammar-specific optional fields simultaneously absent. -/
def optNone (r : UrlRecord) : Prop :=
  r.subsection = none ∧ r.location_state = none ∧ r.location_city = none ∧
  r.country = none ∧ r.job_title = none ∧ r.employer = none ∧ r.skill = none ∧
  r.metric_type = none ∧ r.page_number = none ∧ r.additional_employer = none ∧
  r.location_info = none ∧ r.unique_id = none ∧ r.raw_metric = none

/-- Per-category field-population discipline of the classification
record: each dispatch branch populates only its own grammar's fields,
and no record mixes two grammars' fields. -/
def fieldsOK (r : UrlRecord) : Prop :=
  (r.category = "cost_of_living" →
    r.section_ = some "cost_of_living" ∧ r.subsection = none ∧ r.country = none ∧
    r.job_title = none ∧ r.employer = none ∧ r.skill = none ∧ r.metric_type = none ∧
    r.page_number = none ∧ r.additional_employer = none ∧ r.location_info = none ∧
    r.unique_id = none ∧ r.raw_metric = none) ∧
  (r.category = "research_job" →
    r.section_ = some "research" ∧ r.country.isSome ∧ r.job_title.isSome ∧
    r.subsection = none ∧ r.employer = none ∧ r.skill = none ∧
    r.location_state = none ∧ r.location_city = none ∧ r.raw_metric.isSome) ∧
  (r.category = "research_employer" →
    r.section_ = some "research" ∧ r.country.isSome ∧ r.employer.isSome ∧
    r.subsection = none ∧ r.job_title = none ∧ r.skill = none ∧
    r.location_state = none ∧ r.location_city = none ∧ r.raw_metric.isSome) ∧
  (r.category = "research_country" →
    r.section_ = some "research" ∧ r.country.isSome ∧ r.subsection.isSome ∧
    r.job_title = none ∧ r.employer = none ∧ r.skill = none ∧
    r.location_state = none ∧ r.location_city = none ∧ r.raw_metric.isSome) ∧
  (r.category = "research_skill" →
    r.section_ = some "research" ∧ r.country.isSome ∧ r.skill.isSome ∧
    r.subsection = none ∧ r.job_title = none ∧ r.employer = none ∧
    r.location_state = none ∧ r.location_city = none ∧ r.raw_metric.isSome) ∧
  (r.category = "research_general" →
    r.section_ = some "research" ∧ r.country.isSome ∧ r.subsection = none ∧
    r.job_title = none ∧ r.employer = none ∧ r.skill = none ∧
    r.location_state = none ∧ r.location_city = none ∧ r.metric_type = none ∧
    r.page_number = none ∧ r.additional_employer = none ∧ r.location_info = none ∧
    r.unique_id = none ∧ r.raw_metric = none) ∧
  (r.category = "homepage" → r.section_ = some "homepage" ∧ optNone r) ∧
  (r.category = "tools" → r.section_ = some "salary_calculator" ∧ optNone r) ∧
  (r.category = "commercial" → r.section_ = some "products" ∧ optNone r) ∧
  (r.category = "corporate" → r.section_ = some "careers" ∧ optNone r) ∧
  (r.category = "content" → r.section_ = some "compensation_trends" ∧ optNone r) ∧
  (r.category = "other" →
    (r.section_ = none ∨ r.section_ = some "research" ∨ r.section_ = some "other") ∧
    optNone r)

/-- Counterexample for C2 as stated: on `"https://x/research/"` no grammar
matches (`category` stays `"other"`), yet the record is not the empty
result: `section` has been set to `"research"` — a record with `section`
set but no matching grammar's other fields. -/
theorem record_mix_counterexample :
    (parse_url (some "https://x/research/")).section_ = some "research" ∧
    (parse_url (some "https://x/research/")).category = "other" ∧
    (parse_url (some "https://x/research/")).country = none ∧
    (parse_url (some "https://x/research/")).full_path = some "/research/" := by decide

/-- C2 (amended): field-population invariant: every record satisfies the
per-category discipline `fieldsOK`: each branch populates exactly its
documented fields and never mixes two grammars' fields; however a path
containing `/research/` on which no sub-grammar matches keeps
`category = "other"` with `section = "research"` set, and unmatched URLs
keep `section = "other"` (with `url`, `domain`, `full_path` populated);
the all-absent record arises only for blank or unparsable input. -/
theorem field_population_invariant : ∀ u : Option String, fieldsOK (parse_url u) := by
  intro u
  match u with
  | none =>
    show fieldsOK (empty_result none)
    unfold fieldsOK optNone empty_result
    simp
  | some s =>
    by_cases hs : s = ""
    · rw [show parse_url (some s) = empty_result (some s) by simp [parse_url, hs]]
      unfold fieldsOK optNone empty_result
      simp
    · rcases hup : pyUrlparse (pyStrip s) with _ | ⟨nl, p⟩
      · rw [show parse_url (some s) = empty_result (some s) by
          simp only [parse_url]; rw [if_neg hs, hup]]
        unfold fieldsOK optNone empty_result
        simp
      · rw [show parse_url (some s) = dispatch s nl p by
          simp only [parse_url]; rw [if_neg hs, hup]]
        unfold dispatch colBranch researchBranch mergeMetric mkBase
        repeat' split
        all_goals (unfold fieldsOK optNone; simp)

/-- Witness for C2 at the job-research example: the record populates the
job grammar's fields and leaves every other grammar's fields absent. -/
theorem field_population_invariant_witness :
    (parse_url (some "https://site.example/research/United_States/Job=Software_Engineer/Salary/Page-2")).employer = none ∧
    (parse_url (some "https://site.example/research/United_States/Job=Software_Engineer/Salary/Page-2")).location_state = none := by
  have h := (field_population_invariant
    (some "https://site.example/research/United_States/Job=Software_Engineer/Salary/Page-2")).2.1
    (by decide)
  exact ⟨h.2.2.2.2.1, h.2.2.2.2.2.2.1⟩
